import Mathlib

/-!
Verification of the in-memory table toolkit (`src/lab/main.py`) against its
natural-language specification.

The Python program is shallowly embedded:
- cell values (`Union[str, int, float, bool, datetime]`, plus `None`) become
  the tagged union `PyVal`;
- Python floats are modelled exactly by `PyFloat`: a rational number, or one
  of the non-finite values `inf`, `ninf`, `nan` (signed zero and rounding are
  not modelled; every concrete value the claims exercise is exactly
  representable);
- Python's runtime types used as dictionary values become the enumeration
  `PyType`;
- exceptions become `Except PyError _`, with `PyError` distinguishing the
  `ValueError` / `TypeError` / `IndexError` kinds the program can raise;
- a `Table` (headers, rows, column_types) keeps its Python field names; the
  `column_types` dictionary is modelled as a function `String → Option PyType`
  (`Option.none` = key absent from the dictionary).
-/

/-- The runtime type tags the program assigns to columns
(`str`, `int`, `float`, `bool`, `datetime`). -/
inductive PyType where
  | str
  | int
  | float
  | bool
  | datetime
deriving DecidableEq, Repr

/-- Exception kinds raised by the program. Every schema/range failure in the
source raises `ValueError`; unguarded list indexing raises `IndexError`;
`float(None)` and `float(datetime)` raise `TypeError`. -/
inductive PyError where
  | valueError
  | typeError
  | indexError
deriving DecidableEq, Repr

/-- A Python float: a finite rational, `+inf`, `-inf`, or `nan`.
Rationals stand in for IEEE doubles; the claims only exercise values on which
the two coincide exactly. -/
inductive PyFloat where
  | fin (q : ℚ)
  | inf
  | ninf
  | nan
deriving DecidableEq, Repr

/-- A cell value: one of the runtime types a cell can hold, or `None`
(modelled as `null`). -/
inductive PyVal where
  | str (s : String)
  | int (n : ℤ)
  | float (f : PyFloat)
  | bool (b : Bool)
  | datetime (t : ℕ)
  | null
deriving DecidableEq, Repr

/-- Negation of a Python float. -/
def PyFloat.neg : PyFloat → PyFloat
  | .fin a => .fin (-a)
  | .inf => .ninf
  | .ninf => .inf
  | .nan => .nan

/-- Addition of Python floats (IEEE semantics on the non-finite values). -/
def PyFloat.add : PyFloat → PyFloat → PyFloat
  | .nan, _ => .nan
  | _, .nan => .nan
  | .inf, .ninf => .nan
  | .ninf, .inf => .nan
  | .inf, _ => .inf
  | _, .inf => .inf
  | .ninf, _ => .ninf
  | _, .ninf => .ninf
  | .fin a, .fin b => .fin (a + b)

/-- Subtraction of Python floats: `x - y = x + (-y)`. -/
def PyFloat.sub (x y : PyFloat) : PyFloat := x.add y.neg

/-- Multiplication of Python floats (IEEE semantics on the non-finite values). -/
def PyFloat.mul : PyFloat → PyFloat → PyFloat
  | .nan, _ => .nan
  | _, .nan => .nan
  | .inf, .inf => .inf
  | .inf, .ninf => .ninf
  | .ninf, .inf => .ninf
  | .ninf, .ninf => .inf
  | .inf, .fin b => if 0 < b then .inf else if b < 0 then .ninf else .nan
  | .fin a, .inf => if 0 < a then .inf else if a < 0 then .ninf else .nan
  | .ninf, .fin b => if 0 < b then .ninf else if b < 0 then .inf else .nan
  | .fin a, .ninf => if 0 < a then .ninf else if a < 0 then .inf else .nan
  | .fin a, .fin b => .fin (a * b)

/-- True division of Python floats. The program only divides when the divisor
is nonzero (the `div` lambda guards), so the `fin _ / fin 0` case is never
reached; it is given the rational convention `a / 0 = 0` to stay total. -/
def PyFloat.div : PyFloat → PyFloat → PyFloat
  | .nan, _ => .nan
  | _, .nan => .nan
  | .inf, .inf => .nan
  | .inf, .ninf => .nan
  | .ninf, .inf => .nan
  | .ninf, .ninf => .nan
  | .inf, .fin b => if b < 0 then .ninf else .inf
  | .ninf, .fin b => if b < 0 then .inf else .ninf
  | .fin _, .inf => .fin 0
  | .fin _, .ninf => .fin 0
  | .fin a, .fin b => .fin (a / b)

/-- The in-memory table: `Table.__init__` fields `headers`, `rows`,
`column_types`. The `column_types` dictionary is a function from column name
to `Option PyType`; `Option.none` models a key that is absent. -/
structure Table where
  headers : List String
  rows : List (List PyVal)
  column_types : String → Option PyType

/-- `Table(headers, rows)`: `column_types` defaults every header to `str`
(`{header: str for header in headers}`). -/
def mkTable (headers : List String) (rows : List (List PyVal)) : Table :=
  { headers := headers
    rows := rows
    column_types := fun h => if h ∈ headers then Option.some PyType.str else Option.none }

/-- `isinstance(val, int)`. In Python `bool` is a subclass of `int`, so
boolean values satisfy this check. -/
def isInstInt : PyVal → Bool
  | .int _ => true
  | .bool _ => true
  | _ => false

/-- `isinstance(val, float)`. -/
def isInstFloat : PyVal → Bool
  | .float _ => true
  | _ => false

/-- `isinstance(val, bool)`. -/
def isInstBool : PyVal → Bool
  | .bool _ => true
  | _ => false

/-- `isinstance(val, datetime)`. -/
def isInstDatetime : PyVal → Bool
  | .datetime _ => true
  | _ => false

namespace TableOperations

/-- `[row[col_index] for row in rows if row[col_index] is not None]`.
Cell access uses `getD` with a `null` default; under the data-model invariant
`len(row) == len(headers)` the default is never consulted for a valid column
index. -/
def colValues (rows : List (List PyVal)) (i : ℕ) : List PyVal :=
  (rows.map (fun r => r.getD i PyVal.null)).filter (fun v => v ≠ PyVal.null)

/-- The `if`/`elif` chain of `detect_column_types` for one column: first
classification whose "all values match" test succeeds, in source order
`int`, `float`, `bool`, `datetime`, else `str`. -/
def classifyColumn (rows : List (List PyVal)) (i : ℕ) : PyType :=
  if (colValues rows i).all isInstInt then PyType.int
  else if (colValues rows i).all isInstFloat then PyType.float
  else if (colValues rows i).all isInstBool then PyType.bool
  else if (colValues rows i).all isInstDatetime then PyType.datetime
  else PyType.str

/-- Dictionary assignment `m[k] = v`. -/
def updateMap (m : String → Option PyType) (k : String) (v : PyType) :
    String → Option PyType :=
  fun x => if x = k then Option.some v else m x

/-- `enumerate(headers)` starting at `n`. -/
def enumerate : ℕ → List String → List (ℕ × String)
  | _, [] => []
  | n, h :: rest => (n, h) :: enumerate (n + 1) rest

/-- The loop body of `detect_column_types`: for each `(col_index, header)`
pair write `column_types[header] = classification`. -/
def detectLoop (rows : List (List PyVal)) :
    List (ℕ × String) → (String → Option PyType) → (String → Option PyType)
  | [], m => m
  | (i, h) :: rest, m => detectLoop rows rest (updateMap m h (classifyColumn rows i))

/-- `TableOperations.detect_column_types`: rewrites `column_types` for every
header from the column's runtime values; `headers` and `rows` are untouched. -/
def detect_column_types (t : Table) : Table :=
  { t with column_types := detectLoop t.rows (enumerate 0 t.headers) t.column_types }

/-- `TableOperations.concat`: requires equal header lists, else `ValueError`;
returns `Table(table1.headers, table1.rows + table2.rows)` (so result
`column_types` defaults every column to `str`). -/
def concat (t1 t2 : Table) : Except PyError Table :=
  if t1.headers = t2.headers then
    Except.ok (mkTable t1.headers (t1.rows ++ t2.rows))
  else
    Except.error PyError.valueError

/-- `TableOperations.split`: requires `0 <= row_number <= len(rows)`, else
`ValueError`; returns `Table(headers, rows[:k])` and `Table(headers, rows[k:])`. -/
def split (t : Table) (k : ℤ) : Except PyError (Table × Table) :=
  if 0 ≤ k ∧ k ≤ (t.rows.length : ℤ) then
    Except.ok (mkTable t.headers (t.rows.take k.toNat),
               mkTable t.headers (t.rows.drop k.toNat))
  else
    Except.error PyError.valueError

end TableOperations

/-- Python `float(s)` on a string: an optional sign followed by a decimal
literal (`digits`, `digits.digits`, `digits.`, `.digits`). Strings outside
this grammar fail (`ValueError` in the caller). This models the decimal
fragment of Python's float grammar, the part the program's data exercises. -/
def parseDigits : List Char → Option ℕ
  | [] => Option.none
  | cs =>
    if cs.all Char.isDigit then
      Option.some (cs.foldl (fun a c => a * 10 + (c.toNat - 48)) 0)
    else
      Option.none

/-- Split a character list on `'.'` (the groups between dots). -/
def splitDot : List Char → List (List Char)
  | [] => [[]]
  | c :: rest =>
    match splitDot rest with
    | [] => if c = '.' then [[], []] else [[c]]
    | g :: gs => if c = '.' then [] :: g :: gs else (c :: g) :: gs

/-- Parse a decimal float literal to an exact rational; `Option.none` models
the `ValueError` Python's `float` raises on a malformed string. -/
def parseFloat (s : String) : Option ℚ :=
  let (sign, body) : ℚ × List Char :=
    match s.data with
    | '-' :: r => (-1, r)
    | '+' :: r => (1, r)
    | cs => (1, cs)
  match splitDot body with
  | [w] => (parseDigits w).map (fun n => sign * (n : ℚ))
  | [w, f] =>
    if w.isEmpty ∧ f.isEmpty then Option.none
    else
      let wn := if w.isEmpty then Option.some 0 else parseDigits w
      let fn := if f.isEmpty then Option.some 0 else parseDigits f
      match wn, fn with
      | Option.some a, Option.some b =>
          Option.some (sign * ((a : ℚ) + (b : ℚ) / (10 : ℚ) ^ f.length))
      | _, _ => Option.none
  | _ => Option.none

/-- `TableOperations._convert_to_numeric(value, float)`, i.e. Python
`float(value)`: numeric strings parse, ints and bools convert exactly
(`float(True) = 1.0`), floats pass through; `None` and `datetime` raise
`TypeError` (uncaught by `_convert_to_numeric`, which only catches
`ValueError`); malformed strings raise `ValueError` (re-raised as
`ValueError`). -/
def convertToNumeric : PyVal → Except PyError PyFloat
  | .str s =>
    match parseFloat s with
    | Option.some q => Except.ok (PyFloat.fin q)
    | Option.none => Except.error PyError.valueError
  | .int n => Except.ok (PyFloat.fin (n : ℚ))
  | .float f => Except.ok f
  | .bool b => Except.ok (PyFloat.fin (if b then 1 else 0))
  | .datetime _ => Except.error PyError.typeError
  | .null => Except.error PyError.typeError

instance {ε α : Type} [DecidableEq ε] [DecidableEq α] :
    DecidableEq (Except ε α) := fun a b =>
  match a, b with
  | Except.error e, Except.error f =>
    if h : e = f then Decidable.isTrue (by rw [h])
    else Decidable.isFalse (by intro hc; cases hc; exact h rfl)
  | Except.error _, Except.ok _ => Decidable.isFalse (by intro hc; cases hc)
  | Except.ok _, Except.error _ => Decidable.isFalse (by intro hc; cases hc)
  | Except.ok x, Except.ok y =>
    if h : x = y then Decidable.isTrue (by rw [h])
    else Decidable.isFalse (by intro hc; cases hc; exact h rfl)

/-- A column argument `Union[int, str]`: a zero-based (possibly negative)
index, or a column name. -/
inductive ColRef where
  | idx (i : ℤ)
  | name (s : String)
deriving DecidableEq, Repr

namespace TableOperations

/-- `column if isinstance(column, int) else table.headers.index(column)`:
an integer passes through unchecked; a name is looked up with `.index`,
which raises `ValueError` when absent. -/
def resolveCol (t : Table) : ColRef → Except PyError ℤ
  | .idx i => Except.ok i
  | .name s =>
    match t.headers.findIdx? (fun h => h == s) with
    | Option.some n => Except.ok (n : ℤ)
    | Option.none => Except.error PyError.valueError

/-- Python list indexing `l[i]`: negative indices count from the end;
anything out of range raises `IndexError`. -/
def pyIndex (l : List PyVal) (i : ℤ) : Except PyError PyVal :=
  let j := if i < 0 then i + (l.length : ℤ) else i
  if j < 0 then Except.error PyError.indexError
  else
    match l.get? j.toNat with
    | Option.some a => Except.ok a
    | Option.none => Except.error PyError.indexError

/-- The body of `_apply_operation`'s per-row `try` block up to the two
conversions: read `row[col_index1]`, convert, read `row[col_index2]`,
convert. `IndexError` escapes the `except (ValueError, TypeError)` clause
unchanged; a conversion failure is re-raised as `ValueError`. -/
def cellFloats (i1 i2 : ℤ) (row : List PyVal) :
    Except PyError (PyFloat × PyFloat) := do
  let c1 ← pyIndex row i1
  match convertToNumeric c1 with
  | Except.error _ => Except.error PyError.valueError
  | Except.ok v1 => do
    let c2 ← pyIndex row i2
    match convertToNumeric c2 with
    | Except.error _ => Except.error PyError.valueError
    | Except.ok v2 => Except.ok (v1, v2)

/-- One iteration of the `_apply_operation` loop: the converted operands with
`operation` applied. -/
def rowResult (i1 i2 : ℤ) (op : PyFloat → PyFloat → PyFloat)
    (row : List PyVal) : Except PyError PyFloat :=
  (cellFloats i1 i2 row).map (fun p => op p.1 p.2)

/-- The `result_values` accumulation loop of `_apply_operation`: stops at the
first failing row, before any mutation of the table. -/
def computeResults (i1 i2 : ℤ) (op : PyFloat → PyFloat → PyFloat) :
    List (List PyVal) → Except PyError (List PyFloat)
  | [] => Except.ok []
  | row :: rest =>
    match rowResult i1 i2 op row with
    | Except.error e => Except.error e
    | Except.ok v =>
      match computeResults i1 i2 op rest with
      | Except.error e => Except.error e
      | Except.ok vs => Except.ok (v :: vs)

/-- `TableOperations._apply_operation`, as a state transformer: the first
component is the raised exception (if any), the second the table afterwards.
The source resolves both columns, fills `result_values` for every row, and
only then mutates: `table.headers.append(result_column)` and one
`table.rows[i].append(value)` per row. Every raise happens before the first
mutation, so each error branch returns the table unchanged. `column_types`
gains no entry for the result column. -/
def applyOperation (t : Table) (c1 c2 : ColRef) (resultColumn : String)
    (op : PyFloat → PyFloat → PyFloat) : Except PyError Unit × Table :=
  match resolveCol t c1 with
  | Except.error e => (Except.error e, t)
  | Except.ok i1 =>
    match resolveCol t c2 with
    | Except.error e => (Except.error e, t)
    | Except.ok i2 =>
      match computeResults i1 i2 op t.rows with
      | Except.error e => (Except.error e, t)
      | Except.ok vals =>
        (Except.ok (),
         { t with
            headers := t.headers ++ [resultColumn]
            rows := List.zipWith (fun r v => r ++ [PyVal.float v]) t.rows vals })

/-- The `add` lambda `x + y`. -/
def addOp (x y : PyFloat) : PyFloat := x.add y

/-- The `sub` lambda `x - y`. -/
def subOp (x y : PyFloat) : PyFloat := x.sub y

/-- The `mul` lambda `x * y`. -/
def mulOp (x y : PyFloat) : PyFloat := x.mul y

/-- The `div` lambda `x / y if y != 0 else float('inf')`: a zero divisor
yields the positive-infinity sentinel instead of raising. -/
def divOp (x y : PyFloat) : PyFloat :=
  if y = PyFloat.fin 0 then PyFloat.inf else x.div y

/-- `TableOperations.add`. -/
def add (t : Table) (c1 c2 : ColRef) (resultColumn : String) :
    Except PyError Unit × Table :=
  applyOperation t c1 c2 resultColumn addOp

/-- `TableOperations.sub`. -/
def sub (t : Table) (c1 c2 : ColRef) (resultColumn : String) :
    Except PyError Unit × Table :=
  applyOperation t c1 c2 resultColumn subOp

/-- `TableOperations.mul`. -/
def mul (t : Table) (c1 c2 : ColRef) (resultColumn : String) :
    Except PyError Unit × Table :=
  applyOperation t c1 c2 resultColumn mulOp

/-- `TableOperations.div`. -/
def div (t : Table) (c1 c2 : ColRef) (resultColumn : String) :
    Except PyError Unit × Table :=
  applyOperation t c1 c2 resultColumn divOp

end TableOperations

/-- The partitioning arithmetic shared by `CSVModule.save_table` and
`PickleModule.save_table` when `max_rows` is provided (the file writes
themselves are I/O and elided): `ceil(len(rows)/max_rows)` parts, part `i`
(zero-based) holding `rows[i*max_rows:(i+1)*max_rows]` under the original
headers, written to `f"{file_path}_part{i+1}{ext}"`. -/
def saveTableParts (t : Table) (filePath : String) (ext : String)
    (maxRows : ℕ) : List (String × Table) :=
  let numFiles := (t.rows.length + maxRows - 1) / maxRows
  (List.range numFiles).map (fun i =>
    (filePath ++ "_part" ++ toString (i + 1) ++ ext,
     mkTable t.headers ((t.rows.drop (i * maxRows)).take maxRows)))

/-- Whether an exceptional computation succeeded. -/
def isOk {ε α : Type} : Except ε α → Bool
  | Except.ok _ => true
  | Except.error _ => false

/-! ## Helper lemmas -/

theorem resolveCol_name_not_mem (t : Table) (s : String) (h : s ∉ t.headers) :
    TableOperations.resolveCol t (ColRef.name s) = Except.error PyError.valueError := by
  have hnone : t.headers.findIdx? (fun x => x == s) = Option.none := by
    rw [List.findIdx?_eq_none_iff]
    intro x hx
    cases hbe : x == s with
    | false => rfl
    | true => exact absurd (by rw [eq_of_beq hbe] at hx; exact hx) h
  simp [TableOperations.resolveCol, hnone]

/-! ## Claim C3 -/

/-- C3 counterexample: the claim says `apply_binary` with a column index
outside `[0, len(columns))` fails with the unknown-column error kind, but on
a zero-row table `_apply_operation` with index 5 never touches a row, raises
nothing, and happily appends the result column. -/
theorem c3_counterexample_index_unchecked :
    (TableOperations.applyOperation (mkTable ["a"] []) (ColRef.idx 5)
        (ColRef.idx 5) "r" TableOperations.addOp).1 = Except.ok () ∧
    (TableOperations.applyOperation (mkTable ["a"] []) (ColRef.idx 5)
        (ColRef.idx 5) "r" TableOperations.addOp).2.headers = ["a", "r"] := by
  constructor
  · with_unfolding_all decide
  · with_unfolding_all decide

/-- C3 (amended): `_apply_operation` validates only column *names*: a name
absent from `headers` (in either operand position) raises the unknown-column
`ValueError` and leaves the table unchanged. A column *index* is passed
through unchecked (an out-of-range index raises `IndexError` when a row is
indexed, and on a zero-row table the operation simply succeeds). -/
theorem applyOperation_unknown_name (t : Table) (s : String) (c : ColRef)
    (nm : String) (op : PyFloat → PyFloat → PyFloat) :
    (s ∉ t.headers →
      TableOperations.applyOperation t (ColRef.name s) c nm op
        = (Except.error PyError.valueError, t)) ∧
    (∀ i : ℤ, TableOperations.resolveCol t c = Except.ok i → s ∉ t.headers →
      TableOperations.applyOperation t c (ColRef.name s) nm op
        = (Except.error PyError.valueError, t)) := by
  constructor
  · intro hs
    unfold TableOperations.applyOperation
    rw [resolveCol_name_not_mem t s hs]
  · intro i hi hs
    unfold TableOperations.applyOperation
    rw [hi, resolveCol_name_not_mem t s hs]

/-- C3 witness: on a concrete one-column table, the unknown name `"zz"` in
either operand position raises the unknown-column `ValueError` and the table
is unchanged. -/
theorem applyOperation_unknown_name_witness :
    ("zz" ∉ (mkTable ["a"] [[PyVal.str "1"]]).headers ∧
      TableOperations.applyOperation (mkTable ["a"] [[PyVal.str "1"]])
        (ColRef.name "zz") (ColRef.idx 0) "r" TableOperations.addOp
        = (Except.error PyError.valueError, mkTable ["a"] [[PyVal.str "1"]])) ∧
    (TableOperations.resolveCol (mkTable ["a"] [[PyVal.str "1"]]) (ColRef.idx 0)
        = Except.ok 0 ∧
      TableOperations.applyOperation (mkTable ["a"] [[PyVal.str "1"]])
        (ColRef.idx 0) (ColRef.name "zz") "r" TableOperations.addOp
        = (Except.error PyError.valueError, mkTable ["a"] [[PyVal.str "1"]])) :=
  ⟨⟨by decide,
    (applyOperation_unknown_name (mkTable ["a"] [[PyVal.str "1"]]) "zz"
      (ColRef.idx 0) "r" TableOperations.addOp).1 (by decide)⟩,
   ⟨by decide,
    (applyOperation_unknown_name (mkTable ["a"] [[PyVal.str "1"]]) "zz"
      (ColRef.idx 0) "r" TableOperations.addOp).2 0 (by decide) (by decide)⟩⟩

theorem isOk_iff {ε α : Type} (x : Except ε α) :
    isOk x = true ↔ ∃ a, x = Except.ok a := by
  cases x with
  | error e => simp [isOk]
  | ok a => simp [isOk]

theorem rowResult_of_cellFloats (i1 i2 : ℤ) (op : PyFloat → PyFloat → PyFloat)
    (r : List PyVal) (p : PyFloat × PyFloat)
    (hp : TableOperations.cellFloats i1 i2 r = Except.ok p) :
    TableOperations.rowResult i1 i2 op r = Except.ok (op p.1 p.2) := by
  unfold TableOperations.rowResult
  rw [hp]
  rfl

theorem computeResults_cons_ok (i1 i2 : ℤ) (op : PyFloat → PyFloat → PyFloat)
    (r : List PyVal) (rs : List (List PyVal)) (v : PyFloat) (vs : List PyFloat)
    (hr : TableOperations.rowResult i1 i2 op r = Except.ok v)
    (hrs : TableOperations.computeResults i1 i2 op rs = Except.ok vs) :
    TableOperations.computeResults i1 i2 op (r :: rs) = Except.ok (v :: vs) := by
  unfold TableOperations.computeResults
  rw [hr, hrs]

theorem computeResults_ok_forall2 (i1 i2 : ℤ) (op : PyFloat → PyFloat → PyFloat) :
    ∀ (rows : List (List PyVal)) (vals : List PyFloat),
      TableOperations.computeResults i1 i2 op rows = Except.ok vals →
      List.Forall₂
        (fun r v => TableOperations.rowResult i1 i2 op r = Except.ok v)
        rows vals := by
  intro rows
  induction rows with
  | nil =>
    intro vals h
    unfold TableOperations.computeResults at h
    injection h with h'
    rw [← h']
    exact List.Forall₂.nil
  | cons r rs ih =>
    intro vals h
    revert h
    unfold TableOperations.computeResults
    cases hr : TableOperations.rowResult i1 i2 op r with
    | error e => intro h; exact absurd h (by simp)
    | ok v =>
      dsimp only
      cases hc : TableOperations.computeResults i1 i2 op rs with
      | error e => intro h; exact absurd h (by simp)
      | ok vs =>
        dsimp only
        intro h
        injection h with h'
        rw [← h']
        exact List.Forall₂.cons hr (ih vs hc)

theorem computeResults_ok_of_rows (i1 i2 : ℤ) (op : PyFloat → PyFloat → PyFloat) :
    ∀ rows : List (List PyVal),
      (∀ r ∈ rows, isOk (TableOperations.cellFloats i1 i2 r) = true) →
      ∃ vals, TableOperations.computeResults i1 i2 op rows = Except.ok vals := by
  intro rows
  induction rows with
  | nil => intro _; exact ⟨[], rfl⟩
  | cons r rs ih =>
    intro hall
    obtain ⟨p, hp⟩ := (isOk_iff _).mp (hall r (by simp))
    obtain ⟨vs, hvs⟩ := ih (fun x hx => hall x (List.mem_cons_of_mem r hx))
    exact ⟨op p.1 p.2 :: vs,
      computeResults_cons_ok i1 i2 op r rs _ vs
        (rowResult_of_cellFloats i1 i2 op r p hp) hvs⟩

theorem applyOperation_ok_shape (t : Table) (c1 c2 : ColRef) (nm : String)
    (op : PyFloat → PyFloat → PyFloat) (i1 i2 : ℤ) (vals : List PyFloat)
    (h1 : TableOperations.resolveCol t c1 = Except.ok i1)
    (h2 : TableOperations.resolveCol t c2 = Except.ok i2)
    (h3 : TableOperations.computeResults i1 i2 op t.rows = Except.ok vals) :
    (TableOperations.applyOperation t c1 c2 nm op).1 = Except.ok () ∧
    (TableOperations.applyOperation t c1 c2 nm op).2.headers
      = t.headers ++ [nm] ∧
    (TableOperations.applyOperation t c1 c2 nm op).2.rows
      = List.zipWith (fun r v => r ++ [PyVal.float v]) t.rows vals ∧
    (TableOperations.applyOperation t c1 c2 nm op).2.column_types
      = t.column_types ∧
    List.Forall₂
      (fun r v => ∃ p, TableOperations.cellFloats i1 i2 r = Except.ok p ∧
        v = op p.1 p.2)
      t.rows vals := by
  have hres : TableOperations.applyOperation t c1 c2 nm op
      = (Except.ok (),
         { t with
            headers := t.headers ++ [nm]
            rows := List.zipWith (fun r v => r ++ [PyVal.float v]) t.rows vals }) := by
    unfold TableOperations.applyOperation
    rw [h1]
    dsimp only
    rw [h2]
    dsimp only
    rw [h3]
  refine ⟨by rw [hres], by rw [hres], by rw [hres], by rw [hres], ?_⟩
  have hf2 := computeResults_ok_forall2 i1 i2 op t.rows vals h3
  refine List.Forall₂.imp ?_ hf2
  intro r v hr
  revert hr
  unfold TableOperations.rowResult
  cases hp : TableOperations.cellFloats i1 i2 r with
  | error e => intro hr; exact absurd hr (by simp [Except.map])
  | ok p =>
    intro hr
    refine ⟨p, rfl, ?_⟩
    simp only [Except.map] at hr
    injection hr with h'
    rw [h']

/-! ## Claim C7 -/

/-- C7: when both operand columns resolve and every row's two operand cells
coerce to floats, `_apply_operation` raises nothing, appends `result_name`
as a new trailing header, leaves `column_types` untouched, and replaces each
row `r` by `r ++ [op v1 v2]` where `(v1, v2)` are that row's coerced operand
cells — pre-existing headers and cells are unchanged. -/
theorem applyOperation_appends (t : Table) (c1 c2 : ColRef) (nm : String)
    (op : PyFloat → PyFloat → PyFloat) (i1 i2 : ℤ) (vals : List PyFloat)
    (h1 : TableOperations.resolveCol t c1 = Except.ok i1)
    (h2 : TableOperations.resolveCol t c2 = Except.ok i2)
    (h3 : TableOperations.computeResults i1 i2 op t.rows = Except.ok vals) :
    (TableOperations.applyOperation t c1 c2 nm op).1 = Except.ok () ∧
    (TableOperations.applyOperation t c1 c2 nm op).2.headers
      = t.headers ++ [nm] ∧
    (TableOperations.applyOperation t c1 c2 nm op).2.rows
      = List.zipWith (fun r v => r ++ [PyVal.float v]) t.rows vals ∧
    (TableOperations.applyOperation t c1 c2 nm op).2.column_types
      = t.column_types ∧
    List.Forall₂
      (fun r v => ∃ p, TableOperations.cellFloats i1 i2 r = Except.ok p ∧
        v = op p.1 p.2)
      t.rows vals :=
  applyOperation_ok_shape t c1 c2 nm op i1 i2 vals h1 h2 h3

/-- C7 witness: the spec's example. On columns `["id","Age"]` with rows
`[["1","30"],["2","40"]]`, adding `"Age"` to `"Age"` as `"AgeTwice"` yields
rows `["1","30",60.0]` and `["2","40",80.0]` and headers
`["id","Age","AgeTwice"]`. -/
theorem applyOperation_appends_witness :
    (TableOperations.resolveCol
        (mkTable ["id", "Age"]
          [[PyVal.str "1", PyVal.str "30"], [PyVal.str "2", PyVal.str "40"]])
        (ColRef.name "Age") = Except.ok 1 ∧
      TableOperations.computeResults 1 1 TableOperations.addOp
        (mkTable ["id", "Age"]
          [[PyVal.str "1", PyVal.str "30"], [PyVal.str "2", PyVal.str "40"]]).rows
        = Except.ok [PyFloat.fin 60, PyFloat.fin 80]) ∧
    ((TableOperations.applyOperation
        (mkTable ["id", "Age"]
          [[PyVal.str "1", PyVal.str "30"], [PyVal.str "2", PyVal.str "40"]])
        (ColRef.name "Age") (ColRef.name "Age") "AgeTwice"
        TableOperations.addOp).1 = Except.ok () ∧
      (TableOperations.applyOperation
        (mkTable ["id", "Age"]
          [[PyVal.str "1", PyVal.str "30"], [PyVal.str "2", PyVal.str "40"]])
        (ColRef.name "Age") (ColRef.name "Age") "AgeTwice"
        TableOperations.addOp).2.headers = ["id", "Age", "AgeTwice"] ∧
      (TableOperations.applyOperation
        (mkTable ["id", "Age"]
          [[PyVal.str "1", PyVal.str "30"], [PyVal.str "2", PyVal.str "40"]])
        (ColRef.name "Age") (ColRef.name "Age") "AgeTwice"
        TableOperations.addOp).2.rows
        = [[PyVal.str "1", PyVal.str "30", PyVal.float (PyFloat.fin 60)],
           [PyVal.str "2", PyVal.str "40", PyVal.float (PyFloat.fin 80)]]) :=
  ⟨⟨by with_unfolding_all decide, by with_unfolding_all decide⟩,
   (applyOperation_appends
      (mkTable ["id", "Age"]
        [[PyVal.str "1", PyVal.str "30"], [PyVal.str "2", PyVal.str "40"]])
      (ColRef.name "Age") (ColRef.name "Age") "AgeTwice" TableOperations.addOp
      1 1 [PyFloat.fin 60, PyFloat.fin 80]
      (by with_unfolding_all decide) (by with_unfolding_all decide)
      (by with_unfolding_all decide)).1,
   (applyOperation_appends
      (mkTable ["id", "Age"]
        [[PyVal.str "1", PyVal.str "30"], [PyVal.str "2", PyVal.str "40"]])
      (ColRef.name "Age") (ColRef.name "Age") "AgeTwice" TableOperations.addOp
      1 1 [PyFloat.fin 60, PyFloat.fin 80]
      (by with_unfolding_all decide) (by with_unfolding_all decide)
      (by with_unfolding_all decide)).2.1,
   by with_unfolding_all decide⟩

/-! ## Claim C2 -/

/-- C2: when every row's operand cells coerce, `div` never raises; a row
whose coerced divisor is `0.0` gets the positive-infinity sentinel as its
result value (the appended cell), while `add`/`sub`/`mul` apply the plain
arithmetic lambdas — a zero operand there gives the ordinary result
(`x + 0 = x`, `x - 0 = x`, `x * 0 = 0` on finite values). -/
theorem div_zero_divisor_sentinel (t : Table) (c1 c2 : ColRef) (nm : String)
    (i1 i2 : ℤ)
    (h1 : TableOperations.resolveCol t c1 = Except.ok i1)
    (h2 : TableOperations.resolveCol t c2 = Except.ok i2)
    (hall : ∀ r ∈ t.rows, isOk (TableOperations.cellFloats i1 i2 r) = true) :
    (∃ vals, TableOperations.computeResults i1 i2 TableOperations.divOp t.rows
        = Except.ok vals ∧
      (TableOperations.div t c1 c2 nm).1 = Except.ok () ∧
      (TableOperations.div t c1 c2 nm).2.rows
        = List.zipWith (fun r v => r ++ [PyVal.float v]) t.rows vals ∧
      List.Forall₂
        (fun r v =>
          TableOperations.rowResult i1 i2 TableOperations.divOp r = Except.ok v)
        t.rows vals) ∧
    (∀ r ∈ t.rows, ∀ x y : PyFloat,
      TableOperations.cellFloats i1 i2 r = Except.ok (x, y) →
      (y = PyFloat.fin 0 →
        TableOperations.rowResult i1 i2 TableOperations.divOp r
          = Except.ok PyFloat.inf) ∧
      TableOperations.rowResult i1 i2 TableOperations.addOp r
        = Except.ok (x.add y) ∧
      TableOperations.rowResult i1 i2 TableOperations.subOp r
        = Except.ok (x.sub y) ∧
      TableOperations.rowResult i1 i2 TableOperations.mulOp r
        = Except.ok (x.mul y)) ∧
    (∀ a : ℚ,
      PyFloat.add (PyFloat.fin a) (PyFloat.fin 0) = PyFloat.fin a ∧
      PyFloat.sub (PyFloat.fin a) (PyFloat.fin 0) = PyFloat.fin a ∧
      PyFloat.mul (PyFloat.fin a) (PyFloat.fin 0) = PyFloat.fin 0) := by
  refine ⟨?_, ?_, ?_⟩
  · obtain ⟨vals, hvals⟩ :=
      computeResults_ok_of_rows i1 i2 TableOperations.divOp t.rows hall
    have happ := applyOperation_ok_shape t c1 c2 nm TableOperations.divOp
      i1 i2 vals h1 h2 hvals
    exact ⟨vals, hvals, happ.1, happ.2.2.1,
      computeResults_ok_forall2 i1 i2 TableOperations.divOp t.rows vals hvals⟩
  · intro r _ x y hxy
    refine ⟨?_, ?_, ?_, ?_⟩
    · intro hy
      have := rowResult_of_cellFloats i1 i2 TableOperations.divOp r (x, y) hxy
      rw [this, hy]
      simp [TableOperations.divOp]
    · exact rowResult_of_cellFloats i1 i2 TableOperations.addOp r (x, y) hxy
    · exact rowResult_of_cellFloats i1 i2 TableOperations.subOp r (x, y) hxy
    · exact rowResult_of_cellFloats i1 i2 TableOperations.mulOp r (x, y) hxy
  · intro a
    refine ⟨?_, ?_, ?_⟩
    · show PyFloat.fin (a + 0) = PyFloat.fin a
      rw [add_zero]
    · show PyFloat.fin (a + -0) = PyFloat.fin a
      rw [neg_zero, add_zero]
    · show PyFloat.fin (a * 0) = PyFloat.fin 0
      rw [mul_zero]

/-- C2 witness: on rows `[["3","0"],["8","2"]]`, dividing column 0 by
column 1 succeeds for the whole table, row 0 (zero divisor) gets `inf` and
row 1 gets `4.0`; adding the same columns on row 0 gives the ordinary
`3.0 + 0.0 = 3.0`. -/
theorem div_zero_divisor_sentinel_witness :
    (TableOperations.resolveCol
        (mkTable ["x", "y"]
          [[PyVal.str "3", PyVal.str "0"], [PyVal.str "8", PyVal.str "2"]])
        (ColRef.idx 0) = Except.ok 0 ∧
      TableOperations.resolveCol
        (mkTable ["x", "y"]
          [[PyVal.str "3", PyVal.str "0"], [PyVal.str "8", PyVal.str "2"]])
        (ColRef.idx 1) = Except.ok 1 ∧
      ∀ r ∈ (mkTable ["x", "y"]
          [[PyVal.str "3", PyVal.str "0"], [PyVal.str "8", PyVal.str "2"]]).rows,
        isOk (TableOperations.cellFloats 0 1 r) = true) ∧
    (∃ vals,
      TableOperations.computeResults 0 1 TableOperations.divOp
        (mkTable ["x", "y"]
          [[PyVal.str "3", PyVal.str "0"], [PyVal.str "8", PyVal.str "2"]]).rows
        = Except.ok vals ∧
      (TableOperations.div
        (mkTable ["x", "y"]
          [[PyVal.str "3", PyVal.str "0"], [PyVal.str "8", PyVal.str "2"]])
        (ColRef.idx 0) (ColRef.idx 1) "q").1 = Except.ok () ∧
      (TableOperations.div
        (mkTable ["x", "y"]
          [[PyVal.str "3", PyVal.str "0"], [PyVal.str "8", PyVal.str "2"]])
        (ColRef.idx 0) (ColRef.idx 1) "q").2.rows
        = List.zipWith (fun r v => r ++ [PyVal.float v])
            (mkTable ["x", "y"]
              [[PyVal.str "3", PyVal.str "0"], [PyVal.str "8", PyVal.str "2"]]).rows
            vals ∧
      List.Forall₂
        (fun r v =>
          TableOperations.rowResult 0 1 TableOperations.divOp r = Except.ok v)
        (mkTable ["x", "y"]
          [[PyVal.str "3", PyVal.str "0"], [PyVal.str "8", PyVal.str "2"]]).rows
        vals) ∧
    TableOperations.cellFloats 0 1 [PyVal.str "3", PyVal.str "0"]
      = Except.ok (PyFloat.fin 3, PyFloat.fin 0) ∧
    TableOperations.rowResult 0 1 TableOperations.divOp
      [PyVal.str "3", PyVal.str "0"] = Except.ok PyFloat.inf ∧
    (TableOperations.div
        (mkTable ["x", "y"]
          [[PyVal.str "3", PyVal.str "0"], [PyVal.str "8", PyVal.str "2"]])
        (ColRef.idx 0) (ColRef.idx 1) "q").2.rows
      = [[PyVal.str "3", PyVal.str "0", PyVal.float PyFloat.inf],
         [PyVal.str "8", PyVal.str "2", PyVal.float (PyFloat.fin 4)]] :=
  ⟨⟨by decide, by decide, by with_unfolding_all decide⟩,
   (div_zero_divisor_sentinel
      (mkTable ["x", "y"]
        [[PyVal.str "3", PyVal.str "0"], [PyVal.str "8", PyVal.str "2"]])
      (ColRef.idx 0) (ColRef.idx 1) "q" 0 1 (by decide) (by decide)
      (by with_unfolding_all decide)).1,
   by with_unfolding_all decide,
   ((div_zero_divisor_sentinel
      (mkTable ["x", "y"]
        [[PyVal.str "3", PyVal.str "0"], [PyVal.str "8", PyVal.str "2"]])
      (ColRef.idx 0) (ColRef.idx 1) "q" 0 1 (by decide) (by decide)
      (by with_unfolding_all decide)).2.1
      [PyVal.str "3", PyVal.str "0"] (by decide) (PyFloat.fin 3) (PyFloat.fin 0)
      (by with_unfolding_all decide)).1 rfl,
   by with_unfolding_all decide⟩

/-! ## Claim C4 -/

/-- C4: `_apply_operation` is atomic on failure. All result values are
computed (and every possible raise happens) before `headers.append` and the
per-row appends begin, so whenever it raises, the table is exactly as before
the call: no result column name and no extra cell. -/
theorem applyOperation_atomic (t : Table) (c1 c2 : ColRef) (nm : String)
    (op : PyFloat → PyFloat → PyFloat) (e : PyError)
    (h : (TableOperations.applyOperation t c1 c2 nm op).1 = Except.error e) :
    (TableOperations.applyOperation t c1 c2 nm op).2 = t := by
  revert h
  unfold TableOperations.applyOperation
  cases TableOperations.resolveCol t c1 with
  | error e1 => intro _; rfl
  | ok i1 =>
    dsimp only
    cases TableOperations.resolveCol t c2 with
    | error e2 => intro _; rfl
    | ok i2 =>
      dsimp only
      cases TableOperations.computeResults i1 i2 op t.rows with
      | error e3 => intro _; rfl
      | ok vals => intro h; exact absurd h (by simp)

/-- C4 witness: a table holding the non-numeric cell `"abc"` makes
`_apply_operation` raise `ValueError`, and the table is returned unchanged. -/
theorem applyOperation_atomic_witness :
    (TableOperations.applyOperation (mkTable ["a"] [[PyVal.str "abc"]])
        (ColRef.idx 0) (ColRef.idx 0) "r" TableOperations.addOp).1
      = Except.error PyError.valueError ∧
    (TableOperations.applyOperation (mkTable ["a"] [[PyVal.str "abc"]])
        (ColRef.idx 0) (ColRef.idx 0) "r" TableOperations.addOp).2
      = mkTable ["a"] [[PyVal.str "abc"]] :=
  ⟨by with_unfolding_all decide,
   applyOperation_atomic (mkTable ["a"] [[PyVal.str "abc"]]) (ColRef.idx 0)
     (ColRef.idx 0) "r" TableOperations.addOp PyError.valueError
     (by with_unfolding_all decide)⟩

/-! ## Claim C5 -/

/-- C5: `concat(a, b)` on tables with identical ordered header lists returns
a new Table with `a`'s headers, `a.rows` followed by `b.rows`, and declared
types defaulting to `str` for every column (not inherited); on differing
header lists it raises the structural-mismatch `ValueError`. -/
theorem concat_spec (a b : Table) :
    (a.headers = b.headers →
      ∃ c, TableOperations.concat a b = Except.ok c ∧
        c.headers = a.headers ∧
        c.rows = a.rows ++ b.rows ∧
        ∀ h ∈ c.headers, c.column_types h = Option.some PyType.str) ∧
    (a.headers ≠ b.headers →
      TableOperations.concat a b = Except.error PyError.valueError) := by
  constructor
  · intro heq
    refine ⟨mkTable a.headers (a.rows ++ b.rows), ?_, rfl, rfl, ?_⟩
    · simp [TableOperations.concat, heq]
    · intro h hmem
      simp only [mkTable] at hmem ⊢
      rw [if_pos hmem]
  · intro hne
    simp [TableOperations.concat, hne]

/-- C5 witness: concatenating two concrete tables with equal headers, and the
failure on a mismatched pair. -/
theorem concat_spec_witness :
    ((mkTable ["a"] [[PyVal.int 1]]).headers
        = (mkTable ["a"] [[PyVal.int 2]]).headers ∧
      ∃ c, TableOperations.concat (mkTable ["a"] [[PyVal.int 1]])
          (mkTable ["a"] [[PyVal.int 2]]) = Except.ok c ∧
        c.headers = (mkTable ["a"] [[PyVal.int 1]]).headers ∧
        c.rows = (mkTable ["a"] [[PyVal.int 1]]).rows
            ++ (mkTable ["a"] [[PyVal.int 2]]).rows ∧
        ∀ h ∈ c.headers, c.column_types h = Option.some PyType.str) ∧
    ((mkTable ["a"] []).headers ≠ (mkTable ["b"] []).headers ∧
      TableOperations.concat (mkTable ["a"] []) (mkTable ["b"] [])
        = Except.error PyError.valueError) :=
  ⟨⟨by decide,
    (concat_spec (mkTable ["a"] [[PyVal.int 1]]) (mkTable ["a"] [[PyVal.int 2]])).1
      (by decide)⟩,
   ⟨by decide,
    (concat_spec (mkTable ["a"] []) (mkTable ["b"] [])).2 (by decide)⟩⟩

/-! ## Claim C6 -/

/-- C6: `split(t, k)` for `0 ≤ k ≤ len(rows)` returns two new Tables sharing
`t`'s headers, whose row lists are `rows[:k]` and `rows[k:]`; their
concatenation is `t.rows` and the first part has exactly `k` rows. Any `k`
outside the range raises the range `ValueError`. -/
theorem split_spec (t : Table) (k : ℤ) :
    (0 ≤ k ∧ k ≤ (t.rows.length : ℤ) →
      ∃ p1 p2, TableOperations.split t k = Except.ok (p1, p2) ∧
        p1.headers = t.headers ∧ p2.headers = t.headers ∧
        p1.rows ++ p2.rows = t.rows ∧
        (p1.rows.length : ℤ) = k) ∧
    (¬(0 ≤ k ∧ k ≤ (t.rows.length : ℤ)) →
      TableOperations.split t k = Except.error PyError.valueError) := by
  constructor
  · intro hk
    refine ⟨mkTable t.headers (t.rows.take k.toNat),
            mkTable t.headers (t.rows.drop k.toNat), ?_, rfl, rfl, ?_, ?_⟩
    · simp [TableOperations.split, hk]
    · exact List.take_append_drop k.toNat t.rows
    · show ((t.rows.take k.toNat).length : ℤ) = k
      rw [List.length_take]
      have hle : k.toNat ≤ t.rows.length := by omega
      rw [min_eq_left hle]
      omega
  · intro hk
    simp only [TableOperations.split, if_neg hk]

/-- C6 witness: splitting a concrete two-row table at 1, and the spec's
failing example `split(t, 5)` on a two-row table. -/
theorem split_spec_witness :
    ((0 ≤ (1 : ℤ) ∧ (1 : ℤ) ≤ ((mkTable ["a"] [[PyVal.int 1], [PyVal.int 2]]).rows.length : ℤ)) ∧
      ∃ p1 p2, TableOperations.split (mkTable ["a"] [[PyVal.int 1], [PyVal.int 2]]) 1
          = Except.ok (p1, p2) ∧
        p1.headers = (mkTable ["a"] [[PyVal.int 1], [PyVal.int 2]]).headers ∧
        p2.headers = (mkTable ["a"] [[PyVal.int 1], [PyVal.int 2]]).headers ∧
        p1.rows ++ p2.rows = (mkTable ["a"] [[PyVal.int 1], [PyVal.int 2]]).rows ∧
        (p1.rows.length : ℤ) = 1) ∧
    TableOperations.split (mkTable ["a"] [[PyVal.int 1], [PyVal.int 2]]) 5
      = Except.error PyError.valueError :=
  ⟨⟨by decide,
    (split_spec (mkTable ["a"] [[PyVal.int 1], [PyVal.int 2]]) 1).1 (by decide)⟩,
   (split_spec (mkTable ["a"] [[PyVal.int 1], [PyVal.int 2]]) 5).2 (by decide)⟩

/-! ## Claim C8 -/

theorem chunks_flatten {α : Type} (m : ℕ) (hm : 1 ≤ m) (l : List α) :
    ((List.range ((l.length + m - 1) / m)).map
        (fun i => (l.drop (i * m)).take m)).flatten = l := by
  suffices H : ∀ (n : ℕ) (l : List α), l.length ≤ n →
      ((List.range ((l.length + m - 1) / m)).map
        (fun i => (l.drop (i * m)).take m)).flatten = l from H l.length l le_rfl
  intro n
  induction n with
  | zero =>
    intro l hl
    have hnil : l = [] := List.eq_nil_of_length_eq_zero (Nat.le_zero.mp hl)
    subst hnil
    have hz : ((List.length ([] : List α)) + m - 1) / m = 0 := by
      simp only [List.length_nil]
      exact Nat.div_eq_of_lt (by omega)
    rw [hz]
    rfl
  | succ n ih =>
    intro l hl
    cases l with
    | nil =>
      have hz : ((List.length ([] : List α)) + m - 1) / m = 0 := by
        simp only [List.length_nil]
        exact Nat.div_eq_of_lt (by omega)
      rw [hz]
      rfl
    | cons a l' =>
      have hlen : 1 ≤ (a :: l').length := by simp
      have hN : ((a :: l').length + m - 1) / m
          = (((a :: l').drop m).length + m - 1) / m + 1 := by
        rw [List.length_drop]
        have h3 : (a :: l').length + m - 1 = ((a :: l').length - 1) + m := by
          omega
        rw [h3, Nat.add_div_right _ (by omega : 0 < m)]
        rcases le_or_lt (a :: l').length m with hle | hlt
        · have h1 : (a :: l').length - m = 0 := by omega
          rw [h1]
          have h2 : (0 + m - 1) / m = 0 := Nat.div_eq_of_lt (by omega)
          have h4 : ((a :: l').length - 1) / m = 0 := Nat.div_eq_of_lt (by omega)
          rw [h2, h4]
        · have h5 : (a :: l').length - m + m - 1 = (a :: l').length - 1 := by
            omega
          rw [h5]
      rw [hN, List.range_succ_eq_map]
      rw [List.map_cons, List.map_map, List.flatten_cons]
      have hzero : ((a :: l').drop (0 * m)).take m = (a :: l').take m := by
        rw [Nat.zero_mul, List.drop_zero]
      rw [hzero]
      have hstep : ((fun i => ((a :: l').drop (i * m)).take m) ∘ Nat.succ)
          = fun i => (((a :: l').drop m).drop (i * m)).take m := by
        funext i
        show ((a :: l').drop (Nat.succ i * m)).take m
            = (((a :: l').drop m).drop (i * m)).take m
        rw [List.drop_drop, Nat.succ_eq_add_one]
        ring_nf
      rw [hstep]
      rw [ih ((a :: l').drop m) (by rw [List.length_drop]; simp at hl ⊢; omega)]
      exact List.take_append_drop m (a :: l')

/-- C8: `save_table` with `max_rows = m ≥ 1` produces
`ceil(len(rows)/m) = (len(rows) + m - 1) / m` parts; part `k` (zero-based
here) holds exactly the row slice `rows[k*m:(k+1)*m]` under the original
headers and goes to the destination suffixed with the one-based index
`k + 1`; the concatenation of all parts in index order is the original row
sequence. -/
theorem saveTableParts_spec (t : Table) (p ext : String) (m : ℕ)
    (hm : 1 ≤ m) :
    (saveTableParts t p ext m).length = (t.rows.length + m - 1) / m ∧
    (∀ k, k < (t.rows.length + m - 1) / m →
      (saveTableParts t p ext m)[k]? =
        Option.some (p ++ "_part" ++ toString (k + 1) ++ ext,
          mkTable t.headers ((t.rows.drop (k * m)).take m))) ∧
    (∀ c ∈ saveTableParts t p ext m, c.2.headers = t.headers) ∧
    ((saveTableParts t p ext m).map (fun c => c.2.rows)).flatten = t.rows := by
  refine ⟨?_, ?_, ?_, ?_⟩
  · simp [saveTableParts]
  · intro k hk
    show ((List.range ((t.rows.length + m - 1) / m)).map _)[k]?
        = Option.some _
    rw [List.getElem?_map, List.getElem?_range hk]
    rfl
  · intro c hc
    unfold saveTableParts at hc
    simp only [List.mem_map] at hc
    obtain ⟨i, _, hic⟩ := hc
    rw [← hic]
    rfl
  · show ((List.range ((t.rows.length + m - 1) / m)).map _ |>.map _).flatten
        = t.rows
    rw [List.map_map]
    exact chunks_flatten m hm t.rows

/-- C8 witness: three rows split at `max_rows = 2` give two parts,
`_part1` and `_part2`, whose concatenation restores the rows. -/
theorem saveTableParts_spec_witness :
    (1 : ℕ) ≤ 2 ∧
    (saveTableParts
        (mkTable ["a"] [[PyVal.int 1], [PyVal.int 2], [PyVal.int 3]])
        "out" ".csv" 2).length
      = ((mkTable ["a"] [[PyVal.int 1], [PyVal.int 2], [PyVal.int 3]]).rows.length
          + 2 - 1) / 2 ∧
    ((saveTableParts
        (mkTable ["a"] [[PyVal.int 1], [PyVal.int 2], [PyVal.int 3]])
        "out" ".csv" 2).map (fun c => c.2.rows)).flatten
      = (mkTable ["a"] [[PyVal.int 1], [PyVal.int 2], [PyVal.int 3]]).rows ∧
    (saveTableParts
        (mkTable ["a"] [[PyVal.int 1], [PyVal.int 2], [PyVal.int 3]])
        "out" ".csv" 2).map Prod.fst
      = ["out_part1.csv", "out_part2.csv"] :=
  ⟨by decide,
   (saveTableParts_spec
      (mkTable ["a"] [[PyVal.int 1], [PyVal.int 2], [PyVal.int 3]])
      "out" ".csv" 2 (by decide)).1,
   (saveTableParts_spec
      (mkTable ["a"] [[PyVal.int 1], [PyVal.int 2], [PyVal.int 3]])
      "out" ".csv" 2 (by decide)).2.2.2,
   by decide⟩

/-! ## Type-detection lemmas -/

theorem detectLoop_not_mem (rows : List (List PyVal)) :
    ∀ (pairs : List (ℕ × String)) (m : String → Option PyType) (x : String),
      x ∉ pairs.map Prod.snd →
      TableOperations.detectLoop rows pairs m x = m x := by
  intro pairs
  induction pairs with
  | nil => intro m x _; rfl
  | cons p rest ih =>
    obtain ⟨i, h⟩ := p
    intro m x hx
    simp only [List.map_cons, List.mem_cons] at hx
    push_neg at hx
    show TableOperations.detectLoop rows rest _ x = m x
    rw [ih _ x hx.2]
    unfold TableOperations.updateMap
    rw [if_neg hx.1]

theorem detectLoop_mem_indep (rows : List (List PyVal)) :
    ∀ (pairs : List (ℕ × String)) (m₁ m₂ : String → Option PyType) (x : String),
      x ∈ pairs.map Prod.snd →
      TableOperations.detectLoop rows pairs m₁ x
        = TableOperations.detectLoop rows pairs m₂ x := by
  intro pairs
  induction pairs with
  | nil => intro m₁ m₂ x hx; exact absurd hx (by simp)
  | cons p rest ih =>
    obtain ⟨i, h⟩ := p
    intro m₁ m₂ x hx
    by_cases hxr : x ∈ rest.map Prod.snd
    · exact ih _ _ x hxr
    · have hxh : x = h := by
        simp only [List.map_cons, List.mem_cons] at hx
        rcases hx with h1 | h2
        · exact h1
        · exact absurd h2 hxr
      show TableOperations.detectLoop rows rest _ x
          = TableOperations.detectLoop rows rest _ x
      rw [detectLoop_not_mem rows rest _ x hxr,
          detectLoop_not_mem rows rest _ x hxr]
      unfold TableOperations.updateMap
      rw [if_pos hxh, if_pos hxh]

theorem detectLoop_lookup (rows : List (List PyVal)) :
    ∀ (pairs : List (ℕ × String)) (m : String → Option PyType) (i : ℕ)
      (x : String),
      (i, x) ∈ pairs → (pairs.map Prod.snd).Nodup →
      TableOperations.detectLoop rows pairs m x
        = Option.some (TableOperations.classifyColumn rows i) := by
  intro pairs
  induction pairs with
  | nil => intro m i x hx _; exact absurd hx (by simp)
  | cons p rest ih =>
    obtain ⟨j, g⟩ := p
    intro m i x hx hnd
    rw [List.map_cons, List.nodup_cons] at hnd
    rcases List.mem_cons.mp hx with heq | hrest
    · have h1 : i = j := congrArg Prod.fst heq
      have h2 : x = g := congrArg Prod.snd heq
      subst h1
      subst h2
      show TableOperations.detectLoop rows rest _ x = _
      rw [detectLoop_not_mem rows rest _ x hnd.1]
      unfold TableOperations.updateMap
      rw [if_pos rfl]
    · exact ih _ i x hrest hnd.2

theorem enumerate_map_snd :
    ∀ (n : ℕ) (l : List String),
      (TableOperations.enumerate n l).map Prod.snd = l := by
  intro n l
  induction l generalizing n with
  | nil => rfl
  | cons h rest ih =>
    show ((n, h) :: TableOperations.enumerate (n + 1) rest).map Prod.snd
        = h :: rest
    rw [List.map_cons, ih (n + 1)]

theorem enumerate_mem (l : List String) :
    ∀ (n i : ℕ) (hi : i < l.length),
      (n + i, l.get ⟨i, hi⟩) ∈ TableOperations.enumerate n l := by
  induction l with
  | nil => intro n i hi; exact absurd hi (by simp)
  | cons h rest ih =>
    intro n i hi
    cases i with
    | zero =>
      show (n + 0, h) ∈ (n, h) :: TableOperations.enumerate (n + 1) rest
      rw [Nat.add_zero]
      exact List.mem_cons_self _ _
    | succ i' =>
      have hi' : i' < rest.length := by simpa using hi
      have hmem := ih (n + 1) i' hi'
      have heq : n + (i' + 1) = (n + 1) + i' := by omega
      show (n + (i' + 1), rest.get ⟨i', hi'⟩)
          ∈ (n, h) :: TableOperations.enumerate (n + 1) rest
      rw [heq]
      exact List.mem_cons_of_mem _ hmem

/-! ## Claim C9 -/

/-- C9: `detect_column_types` is idempotent: a second run recomputes every
column's classification from the unchanged `headers` and `rows` and writes
the same `column_types` mapping; the operation never alters `rows` (or
`headers`). Stated under the data-model invariant that every record has the
same arity as `headers`. -/
theorem detect_column_types_idempotent (t : Table)
    (_hwf : ∀ r ∈ t.rows, r.length = t.headers.length) :
    TableOperations.detect_column_types (TableOperations.detect_column_types t)
      = TableOperations.detect_column_types t ∧
    (TableOperations.detect_column_types t).rows = t.rows ∧
    (TableOperations.detect_column_types t).headers = t.headers := by
  refine ⟨?_, rfl, rfl⟩
  unfold TableOperations.detect_column_types
  congr 1
  funext x
  by_cases hx : x ∈ (TableOperations.enumerate 0 t.headers).map Prod.snd
  · exact detectLoop_mem_indep t.rows _ _ _ x hx
  · rw [detectLoop_not_mem t.rows _ _ x hx]

/-- C9 witness: a concrete well-formed table on which the idempotence
theorem applies. -/
theorem detect_column_types_idempotent_witness :
    (∀ r ∈ (mkTable ["a", "b"] [[PyVal.int 1, PyVal.str "x"]]).rows,
      r.length = (mkTable ["a", "b"] [[PyVal.int 1, PyVal.str "x"]]).headers.length) ∧
    TableOperations.detect_column_types
        (TableOperations.detect_column_types
          (mkTable ["a", "b"] [[PyVal.int 1, PyVal.str "x"]]))
      = TableOperations.detect_column_types
          (mkTable ["a", "b"] [[PyVal.int 1, PyVal.str "x"]]) :=
  ⟨by decide,
   (detect_column_types_idempotent
      (mkTable ["a", "b"] [[PyVal.int 1, PyVal.str "x"]]) (by decide)).1⟩

/-! ## Claim C10 -/

/-- C10: on a table with zero rows — and more generally for any column whose
cells are all `None` — every "all values match" test holds vacuously, the
first branch wins, and `detect_column_types` declares the column `int`
(not `str`). -/
theorem detect_all_null_column_int (t : Table) (i : ℕ)
    (hnd : t.headers.Nodup) (hi : i < t.headers.length)
    (hnull : ∀ r ∈ t.rows, r.getD i PyVal.null = PyVal.null) :
    (TableOperations.detect_column_types t).column_types (t.headers.get ⟨i, hi⟩)
      = Option.some PyType.int ∧
    TableOperations.classifyColumn t.rows i = PyType.int := by
  have hclass : TableOperations.classifyColumn t.rows i = PyType.int := by
    have hcv : TableOperations.colValues t.rows i = [] := by
      unfold TableOperations.colValues
      rw [List.filter_eq_nil_iff]
      intro v hv
      rw [List.mem_map] at hv
      obtain ⟨r, hr, hrv⟩ := hv
      rw [← hrv, hnull r hr]
      simp
    unfold TableOperations.classifyColumn
    rw [hcv]
    rfl
  refine ⟨?_, hclass⟩
  unfold TableOperations.detect_column_types
  dsimp only
  have hmem := enumerate_mem t.headers 0 i hi
  rw [Nat.zero_add] at hmem
  have hnd' : ((TableOperations.enumerate 0 t.headers).map Prod.snd).Nodup := by
    rw [enumerate_map_snd]
    exact hnd
  rw [detectLoop_lookup t.rows _ _ i _ hmem hnd', hclass]

/-- C10 witness: a one-column table whose single cell is `None` is declared
`int`, and so is a zero-row table's column. -/
theorem detect_all_null_column_int_witness :
    ((mkTable ["x"] [[PyVal.null]]).headers.Nodup ∧
      (∀ r ∈ (mkTable ["x"] [[PyVal.null]]).rows,
        r.getD 0 PyVal.null = PyVal.null) ∧
      (TableOperations.detect_column_types
          (mkTable ["x"] [[PyVal.null]])).column_types
          ((mkTable ["x"] [[PyVal.null]]).headers.get ⟨0, by decide⟩)
        = Option.some PyType.int) ∧
    (TableOperations.detect_column_types (mkTable ["y"] [])).column_types "y"
      = Option.some PyType.int :=
  ⟨⟨by decide, by decide,
    (detect_all_null_column_int (mkTable ["x"] [[PyVal.null]]) 0 (by decide)
      (by decide) (by decide)).1⟩,
   by decide⟩

/-! ## Claim C1 -/

/-- C1: the claim says an all-boolean column is declared `boolean`. It is
not: in Python `bool` is a subclass of `int`, so `all(isinstance(val, int))`
is already true for an all-boolean column and the first (`int`) branch of
`detect_column_types` wins — the concrete all-boolean column here is
declared `int`, and no column can ever be classified `bool` (that branch of
the `elif` chain is unreachable). -/
theorem bool_column_detected_as_int :
    (TableOperations.detect_column_types
        (mkTable ["flag"] [[PyVal.bool true]])).column_types "flag"
      = Option.some PyType.int ∧
    ∀ (rows : List (List PyVal)) (i : ℕ),
      TableOperations.classifyColumn rows i
        ∈ [PyType.int, PyType.float, PyType.datetime, PyType.str] := by
  constructor
  · decide
  · intro rows i
    unfold TableOperations.classifyColumn
    by_cases h1 : (TableOperations.colValues rows i).all isInstInt = true
    · rw [if_pos h1]
      simp
    · rw [if_neg h1]
      by_cases h2 : (TableOperations.colValues rows i).all isInstFloat = true
      · rw [if_pos h2]
        simp
      · rw [if_neg h2]
        have h3 : ¬(TableOperations.colValues rows i).all isInstBool = true := by
          intro h3
          apply h1
          rw [List.all_eq_true] at h3 ⊢
          intro v hv
          have hb := h3 v hv
          cases v with
          | bool b => rfl
          | str s => exact absurd hb (by simp [isInstBool])
          | int _ => exact absurd hb (by simp [isInstBool])
          | float _ => exact absurd hb (by simp [isInstBool])
          | datetime _ => exact absurd hb (by simp [isInstBool])
          | null => exact absurd hb (by simp [isInstBool])
        rw [if_neg h3]
        by_cases h4 : (TableOperations.colValues rows i).all isInstDatetime = true
        · rw [if_pos h4]
          simp
        · rw [if_neg h4]
          simp
